import Mathlib

/-!
Verification of the sales-tax-calc repository.

The definitions below are a shallow embedding of the Python sources
`tax_data.py` and `web_app.py`.  Python strings are modelled by Lean
`String` (operated on through their character lists, so that every
definition reduces in the kernel), Python floats by `ℚ` with explicit
rounding where the code rounds, Python dicts by insertion-ordered
association lists, and raising code by `Option`-valued functions.
-/

namespace SalesTaxCalc

/-! ### Python string primitives, modelled over character lists -/

/-- Model of Python `s.replace(c, '')`: remove every occurrence of one character. -/
def removeChar (c : Char) (s : String) : String :=
  ⟨s.data.filter (fun d => d ≠ c)⟩

/-- Model of Python `str.strip()`: drop leading and trailing whitespace. -/
def pyStrip (s : String) : String :=
  ⟨((s.data.dropWhile Char.isWhitespace).reverse.dropWhile Char.isWhitespace).reverse⟩

/-- Model of Python `str.lower()` (ASCII case folding). -/
def pyLower (s : String) : String :=
  ⟨s.data.map Char.toLower⟩

/-- Helper for substring search: does the pattern occur as a contiguous
sublist of the haystack (Python `pat in hay`)? -/
def sublistAt (pat : List Char) : List Char → Bool
  | [] => pat.isEmpty
  | c :: rest => pat.isPrefixOf (c :: rest) || sublistAt pat rest

/-- Model of Python `pat in hay` on strings. -/
def strContains (hay pat : String) : Bool :=
  sublistAt pat.data hay.data

/-- Model of Python `hay.startswith(pat)`. -/
def strStarts (hay pat : String) : Bool :=
  pat.data.isPrefixOf hay.data

/-- Model of Python `str.split()` (split on whitespace runs, dropping empties):
token accumulator over the character list. -/
def wsTokensAux : List Char → List Char → List String
  | [], acc => if acc.isEmpty then [] else [⟨acc.reverse⟩]
  | c :: cs, acc =>
    if c.isWhitespace then
      if acc.isEmpty then wsTokensAux cs [] else (⟨acc.reverse⟩ : String) :: wsTokensAux cs []
    else wsTokensAux cs (c :: acc)

/-- Model of Python `str.split()` with no argument. -/
def pySplitWs (s : String) : List String :=
  wsTokensAux s.data []

/-- Model of Python `str.isdigit()` (true iff nonempty and all digits). -/
def pyIsDigit (s : String) : Bool :=
  !s.data.isEmpty && s.data.all Char.isDigit

/-! ### Python `float(str)` on decimal literals

Python `float` accepts an optional sign, a decimal mantissa with an optional
point, and an optional exponent.  We model the numeric value exactly in `ℚ`
(the special forms `inf`/`nan` and underscore separators are outside the data
this program handles and are not modelled). -/

/-- Numeric value of a digit list (most significant first). -/
def digitsToNat (ds : List Char) : Nat :=
  ds.foldl (fun acc c => acc * 10 + (c.toNat - 48)) 0

/-- Scale a rational by a signed power of ten. -/
def scalePow10 (q : ℚ) : Int → ℚ
  | Int.ofNat n => q * (10 : ℚ) ^ n
  | Int.negSucc n => q / (10 : ℚ) ^ (n + 1)

/-- Parse an optionally signed, nonempty digit string (an exponent body). -/
def parseSignedDigits (cs : List Char) : Option Int :=
  match cs with
  | '+' :: ds =>
    if !ds.isEmpty && ds.all Char.isDigit then some (digitsToNat ds) else none
  | '-' :: ds =>
    if !ds.isEmpty && ds.all Char.isDigit then some (-(digitsToNat ds : Int)) else none
  | ds =>
    if !ds.isEmpty && ds.all Char.isDigit then some (digitsToNat ds) else none

/-- Parse the optional exponent tail `e<signed digits>` (must consume all input). -/
def parseExpTail (cs : List Char) : Option Int :=
  match cs with
  | [] => some 0
  | c :: rest => if c = 'e' ∨ c = 'E' then parseSignedDigits rest else none

/-- Parse an unsigned decimal mantissa with optional point and exponent. -/
def parseUnsignedDec (cs : List Char) : Option ℚ :=
  let ip := cs.takeWhile Char.isDigit
  let r1 := cs.dropWhile Char.isDigit
  match r1 with
  | '.' :: r2 =>
    let fp := r2.takeWhile Char.isDigit
    let r3 := r2.dropWhile Char.isDigit
    if ip.isEmpty && fp.isEmpty then none
    else
      (parseExpTail r3).map (fun e =>
        scalePow10 ((digitsToNat ip : ℚ) + (digitsToNat fp : ℚ) / (10 : ℚ) ^ fp.length) e)
  | _ =>
    if ip.isEmpty then none
    else (parseExpTail r1).map (fun e => scalePow10 (digitsToNat ip : ℚ) e)

/-- Model of Python `float(s)` on decimal literals, `none` when `float` raises
`ValueError`. -/
def parseFloatQ (s : String) : Option ℚ :=
  match s.data with
  | '+' :: cs => parseUnsignedDec cs
  | '-' :: cs => (parseUnsignedDec cs).map (fun q => -q)
  | cs => parseUnsignedDec cs

/-! ### `StreamingCSVProcessor._parse_price` (web_app.py lines 301-309) -/

/-- The cleaning step of `_parse_price`: remove dollar signs and commas, then
strip surrounding whitespace. -/
def cleanPrice (s : String) : String :=
  pyStrip (removeChar ',' (removeChar '$' s))

/-- Embedding of `StreamingCSVProcessor._parse_price`: clean the string and
parse it as a decimal number, returning `0` on any parse failure. -/
def parsePrice (s : String) : ℚ :=
  (parseFloatQ (cleanPrice s)).getD 0

/-! ### `tax_data.calculate_sales_tax` (tax_data.py lines 69-86)

Python `round(x, 2)` rounds half to even at two decimal places; we model the
amounts exactly in `ℚ`. -/

/-- Round a rational to the nearest integer, ties to even (Python `round`). -/
def roundHalfEvenZ (q : ℚ) : ℤ :=
  let f := ⌊q⌋
  let r := q - (f : ℚ)
  if r < 1 / 2 then f
  else if 1 / 2 < r then f + 1
  else if f % 2 = 0 then f else f + 1

/-- Model of Python `round(q, 2)`. -/
def pyRound2 (q : ℚ) : ℚ :=
  (roundHalfEvenZ (q * 100) : ℚ) / 100

/-- Embedding of `calculate_sales_tax(amount, tax_rate)` from tax_data.py. -/
def calculate_sales_tax (amount rate : ℚ) : ℚ × ℚ :=
  if amount < 0 then (0, 0)
  else
    let tax := amount * (rate / 100)
    (pyRound2 tax, pyRound2 (amount + tax))

/-! ### Claim C3 -/

/-- Claim C3 counterexample: at `amount = 0.003`, `rate = 100`, the returned
total is `round(amount + raw_tax, 2) = 0.01`, which differs from
`round(amount + tax, 2) = 0.00` computed from the returned (rounded) tax, so
the claimed equation `total == round(amount + tax, 2)` fails on the code. -/
theorem claim_C3_counterexample :
    0 ≤ (3 / 1000 : ℚ) ∧
    (calculate_sales_tax (3 / 1000) 100).2 ≠
      pyRound2 ((3 / 1000 : ℚ) + (calculate_sales_tax (3 / 1000) 100).1) := by
  constructor
  · norm_num
  · with_unfolding_all decide

/-- Claim C3 (amended): for all non-negative amounts and all rates,
`calculate_sales_tax` returns `tax = round(amount * rate / 100, 2)` and
`total = round(amount + amount * rate / 100, 2)` (the total is rounded from
the unrounded tax), and the computation is idempotent: calling it again on
the same inputs returns the same pair. -/
theorem claim_C3_amended_rounding (amount rate : ℚ) (h : 0 ≤ amount) :
    calculate_sales_tax amount rate =
      (pyRound2 (amount * (rate / 100)), pyRound2 (amount + amount * (rate / 100))) ∧
    calculate_sales_tax amount rate = calculate_sales_tax amount rate := by
  refine ⟨?_, rfl⟩
  simp [calculate_sales_tax, not_lt.mpr h]

/-- Claim C3 witness: the amended theorem applied at `amount = 1`, `rate = 5`. -/
theorem claim_C3_witness :
    calculate_sales_tax 1 5 =
      (pyRound2 ((1 : ℚ) * (5 / 100)), pyRound2 ((1 : ℚ) + 1 * (5 / 100))) :=
  (claim_C3_amended_rounding 1 5 (by norm_num)).1

/-! ### Claim C9 -/

set_option maxRecDepth 8000

/-- Claim C9: `_parse_price` strips dollar signs, comma separators and
surrounding whitespace and parses the remainder as a decimal number; when the
cleaned string parses it returns the parsed value, on any parse failure it
returns `0` (it is a total function, so it never raises to its caller).
In particular `"$1,299.00"` parses to `1299` and `"N/A"` parses to `0`. -/
theorem claim_C9_price_parsing :
    (∀ s q, parseFloatQ (cleanPrice s) = some q → parsePrice s = q) ∧
    (∀ s, parseFloatQ (cleanPrice s) = none → parsePrice s = 0) ∧
    parsePrice "$1,299.00" = 1299 ∧
    parsePrice "N/A" = 0 := by
  refine ⟨?_, ?_, by with_unfolding_all decide, by with_unfolding_all decide⟩
  · intro s q h
    simp [parsePrice, h]
  · intro s h
    simp [parsePrice, h]

/-- Claim C9 witness: the parsing theorem applied at the concrete string
`"$2.50"`, whose cleaned form parses to `5/2`. -/
theorem claim_C9_witness : parsePrice "$2.50" = 5 / 2 :=
  claim_C9_price_parsing.1 "$2.50" (5 / 2) (by with_unfolding_all decide)


/-! ### Staleness check (`check_and_update_from_google_sheets`, web_app.py lines 528-573) -/

/-- The persisted Last-Update Record fields consulted by the staleness check:
`size` is the string-encoded byte length (absent when no record exists) and
`lastCheck` the timestamp, in seconds, of the previous check (absent when no
record or no `last_check` field exists). -/
structure LastUpdateInfo where
  size : Option String
  lastCheck : Option Int
deriving DecidableEq

/-- The data consulted by the staleness decision: whether the local raw cache
file exists, the remote `content-length` header (absent when the header is
missing), the Last-Update Record, and the current time in seconds. -/
structure SheetsCheck where
  cacheFileExists : Bool
  remoteSize : Option String
  info : LastUpdateInfo
  now : Int
deriving DecidableEq

/-- Python truthiness of an optional string (`None` and `""` are falsy). -/
def optStrTruthy : Option String → Bool
  | none => false
  | some s => decide (s ≠ "")

/-- Embedding of the `should_update` decision of
`check_and_update_from_google_sheets`: no cached file, changed remote size,
missing previous check, or previous check older than 3600 seconds each force
a refresh, tested in that order. -/
def shouldUpdate (s : SheetsCheck) : Bool :=
  if s.cacheFileExists = false then true
  else if optStrTruthy s.remoteSize = true ∧ s.info.size ≠ s.remoteSize then true
  else if s.info.lastCheck = none then true
  else
    match s.info.lastCheck with
    | some t => decide (s.now - t > 3600)
    | none => false

/-! ### Claim C1 -/

/-- Claim C1: the staleness decision tests its conditions in the fixed order
(no local cache file, changed remote content length, no prior check
timestamp, prior check older than one hour), the first true condition forcing
a refresh and otherwise no refresh; with no prior Last-Update Record it
always refreshes, with a 30-minute-old check and matching size it does not
refresh, and with a 90-minute-old check it refreshes. -/
theorem claim_C1_staleness_order :
    (∀ s : SheetsCheck, s.cacheFileExists = false → shouldUpdate s = true) ∧
    (∀ s : SheetsCheck, s.cacheFileExists = true →
      optStrTruthy s.remoteSize = true → s.info.size ≠ s.remoteSize →
      shouldUpdate s = true) ∧
    (∀ s : SheetsCheck, s.cacheFileExists = true →
      ¬(optStrTruthy s.remoteSize = true ∧ s.info.size ≠ s.remoteSize) →
      s.info.lastCheck = none → shouldUpdate s = true) ∧
    (∀ (s : SheetsCheck) (t : ℤ), s.cacheFileExists = true →
      ¬(optStrTruthy s.remoteSize = true ∧ s.info.size ≠ s.remoteSize) →
      s.info.lastCheck = some t →
      (shouldUpdate s = true ↔ s.now - t > 3600)) ∧
    (∀ (ce : Bool) (rs : Option String) (now : ℤ),
      shouldUpdate ⟨ce, rs, ⟨none, none⟩, now⟩ = true) ∧
    shouldUpdate ⟨true, some "100", ⟨some "100", some 8200⟩, 10000⟩ = false ∧
    shouldUpdate ⟨true, some "100", ⟨some "100", some 4600⟩, 10000⟩ = true := by
  refine ⟨?_, ?_, ?_, ?_, ?_, by decide, by decide⟩
  · intro s h
    simp [shouldUpdate, h]
  · intro s h1 h2 h3
    simp [shouldUpdate, h1, h2, h3]
  · intro s h1 h2 h3
    simp [shouldUpdate, h1, h3, h2]
  · intro s t h1 h2 h3
    simp [shouldUpdate, h1, h2, h3]
  · intro ce rs now
    cases ce with
    | false => simp [shouldUpdate]
    | true =>
      cases rs with
      | none => simp [shouldUpdate, optStrTruthy]
      | some s =>
        by_cases h : s = "" <;> simp [shouldUpdate, optStrTruthy, h]

/-- Claim C1 witness: the first conjunct applied at a concrete state with no
cache file. -/
theorem claim_C1_witness :
    shouldUpdate ⟨false, some "5", ⟨some "5", some 0⟩, 10⟩ = true :=
  claim_C1_staleness_order.1 ⟨false, some "5", ⟨some "5", some 0⟩, 10⟩ rfl

/-! ### Python dicts as insertion-ordered association lists -/

/-- A device price record (the dict `{'msrp': ..., 'prepaid': ...}` stored
per device; `prepaid` is optional). -/
structure PriceRecord where
  msrp : ℚ
  prepaid : Option ℚ
deriving DecidableEq

/-- The device catalog: a Python dict from device name to price record,
modelled as an insertion-ordered association list with unique keys. -/
abbrev Catalog := List (String × PriceRecord)

/-- Model of Python `d.get(k)` on a dict modelled as an association list. -/
def alistGet {α : Type} : List (String × α) → String → Option α
  | [], _ => none
  | p :: rest, k => if p.1 = k then some p.2 else alistGet rest k

/-- Model of Python `d.update(u)`: values of keys present in `u` are replaced
in place, keys only in `u` are appended in order. -/
def dictUpdate {α : Type} (d u : List (String × α)) : List (String × α) :=
  d.map (fun p =>
    match alistGet u p.1 with
    | some v => (p.1, v)
    | none => p)
  ++ u.filter (fun p => (alistGet d p.1).isNone)

/-- Model of Python dict assignment `d[k] = v`. -/
def dictInsert {α : Type} (d : List (String × α)) (k : String) (v : α) :
    List (String × α) :=
  if (alistGet d k).isSome then d.map (fun p => if p.1 = k then (k, v) else p)
  else d ++ [(k, v)]

theorem alistGet_append {α : Type} (l1 l2 : List (String × α)) (k : String) :
    alistGet (l1 ++ l2) k =
      match alistGet l1 k with
      | some v => some v
      | none => alistGet l2 k := by
  induction l1 with
  | nil => simp [alistGet]
  | cons p rest ih => by_cases h : p.1 = k <;> simp [alistGet, h, ih]

theorem alistGet_map_upd {α : Type} (u d : List (String × α)) (k : String) :
    alistGet (d.map (fun p =>
      match alistGet u p.1 with
      | some v => (p.1, v)
      | none => p)) k =
      match alistGet d k with
      | none => none
      | some w =>
        match alistGet u k with
        | some v => some v
        | none => some w := by
  induction d with
  | nil => simp [alistGet]
  | cons p rest ih =>
    by_cases h : p.1 = k
    · subst h
      cases hu : alistGet u p.1 <;> simp [alistGet, hu]
    · cases hu : alistGet u p.1 <;> simp [alistGet, h, hu, ih]

theorem alistGet_filter_absent {α : Type} (u d : List (String × α)) (k : String)
    (h : alistGet d k = none) :
    alistGet (u.filter (fun p => (alistGet d p.1).isNone)) k = alistGet u k := by
  induction u with
  | nil => simp [alistGet]
  | cons p rest ih =>
    by_cases hk : p.1 = k
    · subst hk
      simp [List.filter, alistGet, h, ih]
    · cases hd : alistGet d p.1 <;> simp [List.filter, alistGet, hk, hd, ih]

theorem alistGet_filter_present {α : Type} (u d : List (String × α)) (k : String)
    (w : α) (h : alistGet d k = some w) :
    alistGet (u.filter (fun p => (alistGet d p.1).isNone)) k = none := by
  induction u with
  | nil => simp [alistGet]
  | cons p rest ih =>
    by_cases hk : p.1 = k
    · subst hk
      simp [List.filter, alistGet, h, ih]
    · cases hd : alistGet d p.1 <;> simp [List.filter, alistGet, hk, hd, ih]

/-- Characterization of `dict.update`: the updated value wins, otherwise the
old dict answers. -/
theorem alistGet_dictUpdate {α : Type} (d u : List (String × α)) (k : String) :
    alistGet (dictUpdate d u) k =
      match alistGet u k with
      | some v => some v
      | none => alistGet d k := by
  unfold dictUpdate
  rw [alistGet_append, alistGet_map_upd]
  cases hd : alistGet d k with
  | none =>
    rw [alistGet_filter_absent u d k hd]
    cases alistGet u k <;> simp
  | some w =>
    cases hu : alistGet u k <;>
      simp [alistGet_filter_present u d k w hd, hu]

/-! ### Claim C6 -/

/-- Claim C6: merging an ingested fragment into the catalog
(`self.devices.update(new_devices)`) is last-write-wins by device name: a
name present in both gets the new record wholesale (so fields of the old
record absent from the new one, such as `prepaid`, are lost), names only in
the fragment are added, and names only in the old catalog keep their old
record unchanged. -/
theorem claim_C6_merge_last_write_wins :
    (∀ (d u : Catalog) (name : String) (oldRec newRec : PriceRecord),
      alistGet d name = some oldRec → alistGet u name = some newRec →
      alistGet (dictUpdate d u) name = some newRec) ∧
    (∀ (d u : Catalog) (name : String) (newRec : PriceRecord),
      alistGet d name = none → alistGet u name = some newRec →
      alistGet (dictUpdate d u) name = some newRec) ∧
    (∀ (d u : Catalog) (name : String),
      alistGet u name = none →
      alistGet (dictUpdate d u) name = alistGet d name) := by
  refine ⟨?_, ?_, ?_⟩
  · intro d u name oldRec newRec hd hu
    rw [alistGet_dictUpdate, hu]
  · intro d u name newRec hd hu
    rw [alistGet_dictUpdate, hu]
  · intro d u name hu
    rw [alistGet_dictUpdate, hu]

/-- Claim C6 witness: merging a fragment that rewrites device `"A"` (whose
old record had a `prepaid` field) with a record lacking `prepaid` replaces
the record wholesale. -/
theorem claim_C6_witness :
    alistGet (dictUpdate [("A", ⟨10, some 5⟩)] [("A", ⟨20, none⟩)]) "A" =
      some (⟨20, none⟩ : PriceRecord) :=
  claim_C6_merge_last_write_wins.1 [("A", ⟨10, some 5⟩)] [("A", ⟨20, none⟩)]
    "A" ⟨10, some 5⟩ ⟨20, none⟩ rfl rfl

/-! ### `OptimizedDeviceCache.search_devices` (web_app.py lines 135-166)

The search cache is Python `OrderedDict` used as an LRU: oldest entry first,
`move_to_end` on hit, `popitem(last=False)` when at capacity. -/

/-- The cache state consulted by `search_devices`: the device dict, the
search-result cache (oldest first) and its capacity. -/
structure DeviceCacheState where
  devices : Catalog
  searchCache : List (String × List String)
  maxCacheSize : Nat
deriving DecidableEq

/-- The cache key `f"{query.lower()}:{limit}"`. -/
def cacheKey (query : String) (limit : Nat) : String :=
  pyLower query ++ ":" ++ toString limit

/-- Model of `OrderedDict.move_to_end`, first half: remove the entry with the
given key (dict keys are unique, so filtering equals removal). -/
def eraseKey (c : List (String × List String)) (k : String) :
    List (String × List String) :=
  c.filter (fun p => p.1 ≠ k)

/-- The search loop of `search_devices`: the first `limit` device names whose
lowercased form contains the lowercased query, in dict iteration order. -/
def searchMatches (devices : Catalog) (queryLower : String) (limit : Nat) :
    List String :=
  ((devices.map Prod.fst).filter (fun name => strContains (pyLower name) queryLower)).take limit

/-- Embedding of `search_devices(query, limit)`: returns the result list and
the new search cache.  An empty query returns the first `limit` device names
without touching the cache; otherwise a cache hit returns the stored list and
moves its entry to the most-recent end, and a miss computes the matches,
evicts the oldest entry when the cache is at capacity, and stores the
result. -/
def search_devices (st : DeviceCacheState) (query : String) (limit : Nat) :
    List String × List (String × List String) :=
  if query = "" then ((st.devices.map Prod.fst).take limit, st.searchCache)
  else
    let key := cacheKey query limit
    match alistGet st.searchCache key with
    | some cached => (cached, eraseKey st.searchCache key ++ [(key, cached)])
    | none =>
      let results := searchMatches st.devices (pyLower query) limit
      let c :=
        if st.searchCache.length ≥ st.maxCacheSize then st.searchCache.drop 1
        else st.searchCache
      (results, c ++ [(key, results)])

theorem alistGet_none_iff {α : Type} (l : List (String × α)) (k : String) :
    alistGet l k = none ↔ ∀ p ∈ l, p.1 ≠ k := by
  induction l with
  | nil => simp [alistGet]
  | cons p rest ih =>
    by_cases h : p.1 = k <;> simp [alistGet, h, ih]

theorem alistGet_concat_self {α : Type} (l : List (String × α)) (k : String)
    (v : α) (h : alistGet l k = none) : alistGet (l ++ [(k, v)]) k = some v := by
  rw [alistGet_append, h]
  simp [alistGet]

theorem alistGet_eraseKey_self (c : List (String × List String)) (k : String) :
    alistGet (eraseKey c k) k = none := by
  rw [alistGet_none_iff]
  intro p hp
  have := List.of_mem_filter hp
  simpa using this

theorem alistGet_drop_one {α : Type} (l : List (String × α)) (k : String)
    (h : alistGet l k = none) : alistGet (l.drop 1) k = none := by
  cases l with
  | nil => simp [alistGet]
  | cons p rest =>
    rw [alistGet_none_iff] at h ⊢
    intro q hq
    exact h q (List.mem_cons_of_mem p hq)

/-! ### Claim C5 -/

/-- Claim C5 counterexample: for the empty query the code returns before any
cache interaction, so after `search_devices("", 10)` the cache is unchanged
and contains no entry for the (normalized query, limit) pair, refuting the
claim for the empty query. -/
theorem claim_C5_counterexample :
    (search_devices ⟨[("Phone A", ⟨1, none⟩)], [], 2000⟩ "" 10).2 = [] ∧
    alistGet (search_devices ⟨[("Phone A", ⟨1, none⟩)], [], 2000⟩ "" 10).2
      (cacheKey "" 10) = none := by
  exact ⟨rfl, rfl⟩

/-- Claim C5 (amended): for every non-empty query and every limit, after
`search_devices(query, limit)` the (normalized query, limit) key is present
in the search cache and maps to the returned list; a subsequent identical
call is a cache hit that returns the previously computed list unchanged and
moves the entry to the most-recent end; and a cache write that happens when
the cache is at capacity evicts the least-recently-used (oldest) entry.  The
empty query bypasses the cache entirely. -/
theorem claim_C5_amended_cache (st : DeviceCacheState) (query : String)
    (limit : Nat) (hq : query ≠ "") :
    alistGet (search_devices st query limit).2 (cacheKey query limit) =
      some (search_devices st query limit).1 ∧
    (search_devices { st with searchCache := (search_devices st query limit).2 }
        query limit).1 = (search_devices st query limit).1 ∧
    (search_devices { st with searchCache := (search_devices st query limit).2 }
        query limit).2.getLast? =
      some (cacheKey query limit, (search_devices st query limit).1) ∧
    (alistGet st.searchCache (cacheKey query limit) = none →
      st.searchCache.length ≥ st.maxCacheSize →
      (search_devices st query limit).2 =
        st.searchCache.drop 1 ++
          [(cacheKey query limit, (search_devices st query limit).1)]) := by
  have hkey : ∀ c : List (String × List String),
      alistGet (search_devices { st with searchCache := c } query limit).2
          (cacheKey query limit) =
        some (search_devices { st with searchCache := c } query limit).1 := by
    intro c
    simp only [search_devices, if_neg hq]
    cases hc : alistGet c (cacheKey query limit) with
    | some cached =>
      simp only [hc]
      exact alistGet_concat_self _ _ _ (alistGet_eraseKey_self c (cacheKey query limit))
    | none =>
      simp only [hc]
      by_cases hl : c.length ≥ st.maxCacheSize
      · simp only [if_pos hl]
        exact alistGet_concat_self _ _ _ (alistGet_drop_one c _ hc)
      · simp only [if_neg hl]
        exact alistGet_concat_self _ _ _ hc
  have hst : st = { st with searchCache := st.searchCache } := rfl
  have h1 : alistGet (search_devices st query limit).2 (cacheKey query limit) =
      some (search_devices st query limit).1 := by
    rw [hst]
    exact hkey st.searchCache
  refine ⟨h1, ?_, ?_, ?_⟩
  · simp only [search_devices, if_neg hq] at h1 ⊢
    rw [h1]
  · simp only [search_devices, if_neg hq] at h1 ⊢
    rw [h1]
    rw [← List.concat_eq_append, List.getLast?_concat]
  · intro hmiss hfull
    simp only [search_devices, if_neg hq, hmiss, if_pos hfull]

/-- Claim C5 witness: the amended cache theorem applied to a concrete state
and the query `"galaxy"`. -/
theorem claim_C5_witness :
    alistGet (search_devices ⟨[("Galaxy S25", ⟨1, none⟩)], [], 2⟩ "galaxy" 10).2
        (cacheKey "galaxy" 10) =
      some (search_devices ⟨[("Galaxy S25", ⟨1, none⟩)], [], 2⟩ "galaxy" 10).1 :=
  (claim_C5_amended_cache ⟨[("Galaxy S25", ⟨1, none⟩)], [], 2⟩ "galaxy" 10
    (by decide)).1

/-! ### `OptimizedDeviceCache._build_indexes` / `load_devices`
(web_app.py lines 107-129) -/

/-- The brand computation `device_name.split()[0].lower() if device_name
else ''`.  A nonempty all-whitespace name makes `split()` empty, so the
subscript raises `IndexError`, modelled as `none`. -/
def brandOf (name : String) : Option String :=
  if name = "" then some ""
  else
    match pySplitWs name with
    | [] => none
    | t :: _ => some (pyLower t)

/-- The price bucket `int(price // 100) * 100` keying the price index (the
Python key is the string of the range; we keep its determining lower
bound). -/
def priceBucket (msrp : ℚ) : Int :=
  ⌊msrp / 100⌋ * 100

/-- One iteration of the `_build_indexes` loop: append the brand index entry
(raising, i.e. `none`, when the brand subscript raises) and, when the price
is truthy, the price bucket entry. -/
def buildStep (acc : Option (List (String × String) × List (Int × String)))
    (p : String × PriceRecord) :
    Option (List (String × String) × List (Int × String)) :=
  match acc with
  | none => none
  | some (bi, pi) =>
    match brandOf p.1 with
    | none => none
    | some b =>
      some (bi ++ [(b, p.1)],
        if p.2.msrp ≠ 0 then pi ++ [(priceBucket p.2.msrp, p.1)] else pi)

/-- Embedding of `_build_indexes`: fold the index-building loop over the
device dict in iteration order. -/
def buildIndexes (devices : Catalog) :
    Option (List (String × String) × List (Int × String)) :=
  devices.foldl buildStep (some ([], []))

/-- Embedding of `OptimizedDeviceCache.load_devices`: store the catalog and
rebuild the indexes; `none` when index building raises. -/
def load_devices (devices : Catalog) :
    Option (Catalog × (List (String × String) × List (Int × String))) :=
  (buildIndexes devices).map (fun ix => (devices, ix))

theorem wsTokensAux_ne_nil_of_acc {l acc : List Char} (h : acc ≠ []) :
    wsTokensAux l acc ≠ [] := by
  induction l generalizing acc with
  | nil => simp [wsTokensAux, h]
  | cons c cs ih =>
    by_cases hw : c.isWhitespace
    · simp [wsTokensAux, hw, h]
    · simp only [wsTokensAux, hw, if_neg, Bool.false_eq_true, if_false]
      exact ih (by simp)

theorem wsTokensAux_ne_nil {l : List Char} (h : ∃ c ∈ l, ¬ c.isWhitespace)
    (acc : List Char) : wsTokensAux l acc ≠ [] := by
  induction l generalizing acc with
  | nil => simp at h
  | cons c cs ih =>
    by_cases hw : c.isWhitespace
    · have h2 : ∃ x ∈ cs, ¬ x.isWhitespace := by
        obtain ⟨x, hx, hxw⟩ := h
        rcases List.mem_cons.mp hx with he | hm
        · exact absurd (he ▸ hw) hxw
        · exact ⟨x, hm, hxw⟩
      by_cases ha : acc = []
      · subst ha
        simpa [wsTokensAux, hw] using ih h2 []
      · simp [wsTokensAux, hw, ha]
    · simp only [wsTokensAux, hw, Bool.false_eq_true, if_false]
      exact wsTokensAux_ne_nil_of_acc (by simp)

theorem brandOf_isSome {name : String}
    (h : ∃ c ∈ name.data, ¬ c.isWhitespace) : (brandOf name).isSome := by
  have hne : name ≠ "" := by
    intro he
    subst he
    simp at h
  rw [brandOf, if_neg hne]
  cases hs : pySplitWs name with
  | nil => exact absurd hs (wsTokensAux_ne_nil h [])
  | cons t rest => simp

theorem buildFold_isSome (devices : Catalog)
    (h : ∀ p ∈ devices, (brandOf p.1).isSome)
    (init : Option (List (String × String) × List (Int × String)))
    (hi : init.isSome) : (devices.foldl buildStep init).isSome := by
  induction devices generalizing init with
  | nil => simpa using hi
  | cons p rest ih =>
    simp only [List.foldl_cons]
    refine ih (fun q hq => h q (List.mem_cons_of_mem p hq)) _ ?_
    obtain ⟨bipi, hbp⟩ := Option.isSome_iff_exists.mp hi
    obtain ⟨b, hb⟩ := Option.isSome_iff_exists.mp (h p (List.mem_cons_self p rest))
    subst hbp
    simp only [buildStep, hb]
    cases bipi with
    | mk bi pi => simp

/-! ### Claim C10 -/

/-- Claim C10: loading a catalog into the device cache succeeds whenever
every device-name key contains at least one non-whitespace character, but a
catalog with a nonempty all-whitespace key makes index building raise
(`name.split()[0]` on an empty split), so cache loading is not total over
catalogs with merely non-empty keys. -/
theorem claim_C10_index_build :
    (∀ devices : Catalog,
      (∀ p ∈ devices, ∃ c ∈ p.1.data, ¬ c.isWhitespace) →
      (load_devices devices).isSome) ∧
    load_devices [(" ", ⟨100, none⟩)] = none := by
  constructor
  · intro devices h
    have : (buildIndexes devices).isSome :=
      buildFold_isSome devices (fun p hp => brandOf_isSome (h p hp)) _ rfl
    simpa [load_devices] using this
  · rfl

/-- Claim C10 witness: the totality half applied to a one-device catalog
whose key has a non-whitespace character. -/
theorem claim_C10_witness :
    (load_devices [("Pixel 8", ⟨499, none⟩)]).isSome :=
  claim_C10_index_build.1 [("Pixel 8", ⟨499, none⟩)]
    (by
      intro p hp
      rcases List.mem_singleton.mp hp with rfl
      exact ⟨'P', by decide, by decide⟩)


/-! ### `StreamingCSVProcessor` column detection and row loop
(web_app.py lines 186-299)

In the streaming processor each detector scans the header names for keyword
matches first and only falls back to the fixed column index (1 / 4 / 8) when
no name matches. -/

/-- The device-name keywords of `_detect_phone_column`. -/
def phonePatterns : List String :=
  ["phone", "device", "model", "name", "product"]

/-- The price keywords of `_detect_msrp_column`. -/
def msrpPatterns : List String :=
  ["msrp", "price", "cost", "amount", "value"]

/-- The prepaid keywords of `_detect_prepaid_column`. -/
def prepaidPatterns : List String :=
  ["prepaid", "prepay", "suggested"]

/-- Does `str(field).lower().strip()` contain any of the patterns? -/
def fieldMatchesAny (pats : List String) (field : String) : Bool :=
  pats.any (fun pat => strContains (pyStrip (pyLower field)) pat)

/-- Embedding of `_detect_phone_column`: first field containing a device-name
keyword, else the field at index 1 when it exists. -/
def detectPhoneColumn (fieldnames : List String) : Option String :=
  match fieldnames.find? (fun f => fieldMatchesAny phonePatterns f) with
  | some f => some f
  | none => fieldnames.get? 1

/-- Embedding of `_detect_msrp_column`: first field containing a price
keyword, else the field at index 4 when it exists. -/
def detectMsrpColumn (fieldnames : List String) : Option String :=
  match fieldnames.find? (fun f => fieldMatchesAny msrpPatterns f) with
  | some f => some f
  | none => fieldnames.get? 4

/-- Embedding of `_detect_prepaid_column`: first field containing a prepaid
keyword, else the field at index 8 when it exists. -/
def detectPrepaidColumn (fieldnames : List String) : Option String :=
  match fieldnames.find? (fun f => fieldMatchesAny prepaidPatterns f) with
  | some f => some f
  | none => fieldnames.get? 8

/-- The `csv.DictReader` row value `str(row.get(col, '')).strip()`.  For
duplicate fieldnames the reader keeps the last occurrence; a short row fills
the missing values with Python `None`, which stringifies to `"None"`. -/
def rowCell (fieldnames cells : List String) (col : String) : String :=
  match (fieldnames.enum.reverse).find? (fun p => p.2 = col) with
  | some iv =>
    match cells.get? iv.1 with
    | some c => pyStrip c
    | none => "None"
  | none => ""

/-- The raw `row.get(col)` value used for the prepaid truthiness test:
`none` models both a missing key and the Python `None` fill of a short
row. -/
def rowCellRaw (fieldnames cells : List String) (col : String) : Option String :=
  match (fieldnames.enum.reverse).find? (fun p => p.2 = col) with
  | some iv => cells.get? iv.1
  | none => none

/-- The running totals of the streaming row loop. -/
structure IngestTotals where
  devices : Catalog
  processed : Nat
  skipped : Nat
deriving DecidableEq

/-- Embedding of one iteration of the `process_csv_stream` row loop: skip
(counting it) when the stripped device name or price cell is empty or the
price parses to a non-positive value, otherwise store a record (with the
prepaid price when its cell is truthy and parses to a positive value) and
count it processed.  First, the prepaid part of the stored record: the
prepaid cell is consulted only when the detected prepaid column is truthy
and the raw cell value is truthy, and kept only when it parses to a
positive value. -/
def prepaidValue (fieldnames cells : List String) (prepaidCol : Option String) :
    Option ℚ :=
  match prepaidCol with
  | some pc =>
    if pc ≠ "" then
      match rowCellRaw fieldnames cells pc with
      | some raw =>
        if raw ≠ "" then
          let pp := parsePrice (pyStrip raw)
          if 0 < pp then some pp else none
        else none
      | none => none
    else none
  | none => none

/-- Embedding of one iteration of the `process_csv_stream` row loop. -/
def csvRowStep (fieldnames : List String) (phoneCol msrpCol : String)
    (prepaidCol : Option String) (st : IngestTotals) (cells : List String) :
    IngestTotals :=
  let phoneName := rowCell fieldnames cells phoneCol
  let msrpStr := rowCell fieldnames cells msrpCol
  if phoneName = "" ∨ msrpStr = "" then
    { st with skipped := st.skipped + 1 }
  else
    let msrp := parsePrice msrpStr
    if msrp ≤ 0 then { st with skipped := st.skipped + 1 }
    else
      { devices := dictInsert st.devices phoneName
          ⟨msrp, prepaidValue fieldnames cells prepaidCol⟩,
        processed := st.processed + 1,
        skipped := st.skipped }

/-- The success payload of `process_csv_stream`. -/
structure CsvOk where
  devices : Catalog
  processed : Nat
  skipped : Nat
  phoneColumn : String
  msrpColumn : String
  prepaidColumn : Option String
deriving DecidableEq

/-- Embedding of `StreamingCSVProcessor.process_csv_stream` on the decoded
table (header fieldnames plus data rows): detect the columns, fail (the
`'Could not detect phone name or MSRP columns'` return) when the phone or
price column is falsy, otherwise run the row loop. -/
def process_csv_stream (fieldnames : List String) (rows : List (List String)) :
    Option CsvOk :=
  match detectPhoneColumn fieldnames, detectMsrpColumn fieldnames with
  | some pc, some mc =>
    if pc ≠ "" ∧ mc ≠ "" then
      some ⟨(rows.foldl
          (csvRowStep fieldnames pc mc (detectPrepaidColumn fieldnames))
          ⟨[], 0, 0⟩).devices,
        (rows.foldl
          (csvRowStep fieldnames pc mc (detectPrepaidColumn fieldnames))
          ⟨[], 0, 0⟩).processed,
        (rows.foldl
          (csvRowStep fieldnames pc mc (detectPrepaidColumn fieldnames))
          ⟨[], 0, 0⟩).skipped,
        pc, mc, detectPrepaidColumn fieldnames⟩
    else none
  | _, _ => none

/-! ### Claim C8 -/

/-- Claim C8: in the streaming row loop a record is skipped (skip counter
incremented, processed counter unchanged) exactly when the stripped device
name is empty or the primary price parses to a value at most `0` (an empty
price cell parses to `0`); otherwise a price record with the parsed price is
stored and the processed counter is incremented.  Concretely, a 3-row table
whose second row has an empty device name and whose third row has price `-5`
yields one processed and two skipped records. -/
theorem claim_C8_skip_rules :
    (∀ (fieldnames : List String) (pc mc : String) (ppc : Option String)
        (st : IngestTotals) (cells : List String),
      ((rowCell fieldnames cells pc = "" ∨
          parsePrice (rowCell fieldnames cells mc) ≤ 0) →
        csvRowStep fieldnames pc mc ppc st cells =
          { st with skipped := st.skipped + 1 }) ∧
      (¬(rowCell fieldnames cells pc = "" ∨
          parsePrice (rowCell fieldnames cells mc) ≤ 0) →
        (csvRowStep fieldnames pc mc ppc st cells).processed = st.processed + 1 ∧
        (csvRowStep fieldnames pc mc ppc st cells).skipped = st.skipped ∧
        ∃ r : PriceRecord,
          (csvRowStep fieldnames pc mc ppc st cells).devices =
            dictInsert st.devices (rowCell fieldnames cells pc) r ∧
          r.msrp = parsePrice (rowCell fieldnames cells mc))) ∧
    process_csv_stream ["Phone", "Price"]
        [["Phone A", "100"], ["", "50"], ["Phone C", "-5"]] =
      some ⟨[("Phone A", ⟨100, none⟩)], 1, 2, "Phone", "Price", none⟩ := by
  constructor
  · intro fieldnames pc mc ppc st cells
    constructor
    · intro h
      rcases h with h | h
      · simp [csvRowStep, h]
      · by_cases hm : rowCell fieldnames cells mc = ""
        · simp [csvRowStep, hm]
        · by_cases hp : rowCell fieldnames cells pc = ""
          · simp [csvRowStep, hp]
          · simp [csvRowStep, hp, hm, h]
    · intro h
      push_neg at h
      obtain ⟨hp, hm⟩ := h
      have hm0 : rowCell fieldnames cells mc ≠ "" := by
        intro he
        rw [he] at hm
        have : parsePrice "" = 0 := by with_unfolding_all decide
        rw [this] at hm
        exact absurd le_rfl (not_le.mpr hm)
      have hcond : ¬(rowCell fieldnames cells pc = "" ∨
          rowCell fieldnames cells mc = "") := by
        simp [hp, hm0]
      simp only [csvRowStep, if_neg hcond, if_neg (not_le.mpr hm)]
      exact ⟨trivial, trivial, ⟨parsePrice (rowCell fieldnames cells mc),
        prepaidValue fieldnames cells ppc⟩, rfl, rfl⟩
  · with_unfolding_all decide

/-- Claim C8 witness: the skip rule applied to the concrete row with an empty
device name. -/
theorem claim_C8_witness :
    csvRowStep ["Phone", "Price"] "Phone" "Price" none ⟨[], 0, 0⟩ ["", "50"] =
      ⟨[], 0, 1⟩ :=
  (claim_C8_skip_rules.1 ["Phone", "Price"] "Phone" "Price" none ⟨[], 0, 0⟩
    ["", "50"]).1 (Or.inl rfl)


/-! ### The pandas fallback of `process_price_sheet`
(web_app.py lines 683-991)

Cells of a pandas dataframe are modelled as strings, exact rationals (for
float columns) or NaN.  `pd.read_csv` type inference is modelled per column:
empty cells become NaN, and a column whose non-empty cells all parse as
numbers becomes a float column.  Python renders a float cell back to a
string only in the device-name position; that rendering is modelled by
`toString` on `ℚ` (no claim depends on its exact spelling). -/

/-- A pandas cell value. -/
inductive PdVal where
  | str (s : String)
  | num (q : ℚ)
  | na
deriving DecidableEq

/-- The detection state for the three column roles of `process_price_sheet`
(a falsy entry, `none` or `some ""`, means unresolved). -/
structure DetectedCols where
  phone : Option String
  msrp : Option String
  prepaid : Option String
deriving DecidableEq

/-- Python-style conditional assignment `if not x: x = found` where a loop
supplies the first match: keep a truthy current value, otherwise take the
found value when there is one. -/
def pyAssign (cur found : Option String) : Option String :=
  if optStrTruthy cur = true then cur
  else
    match found with
    | some c => some c
    | none => cur

/-- The code/id exclusion keywords (lines 763 and 824 and 849). -/
def excludeKeywords : List String :=
  ["sap", "code", "id", "number", "sku", "#"]

/-- The broader device-name keywords (line 762). -/
def broadPhoneKeywords : List String :=
  ["phone", "device", "product", "model", "equipment", "item", "name"]

/-- The price keywords (line 777). -/
def priceKeywords : List String :=
  ["msrp", "price", "cost", "payment", "amount", "value", "retail"]

/-- The exact `"Phone"` column test of lines 745. -/
def exactPhoneCond (l : String) : Bool :=
  decide (pyStrip l = "Phone") || decide (pyLower (pyStrip l) = "phone")

/-- The `"RIC Purchase Payment"` column test of line 753. -/
def msrpExactCond (l : String) : Bool :=
  strContains (pyLower (pyStrip l)) "ric purchase payment" ||
    decide (pyStrip l = "RIC Purchase Payment")

/-- The `"Suggested Prepaid"`/`prepaid` column test of line 757. -/
def prepaidExactCond (l : String) : Bool :=
  strContains (pyLower (pyStrip l)) "suggested prepaid" ||
    strContains (pyLower (pyStrip l)) "prepaid"

/-- The broader device-name keyword test of lines 765-773 (a name keyword
present and no exclusion keyword). -/
def broadPhoneCond (l : String) : Bool :=
  broadPhoneKeywords.any (fun k => strContains (pyStrip (pyLower l)) k) &&
    !(excludeKeywords.any (fun k => strContains (pyStrip (pyLower l)) k))

/-- The price keyword test of lines 776-782. -/
def priceKwCond (l : String) : Bool :=
  priceKeywords.any (fun k => strContains (pyStrip (pyLower l)) k)

/-- The non-NaN sample values `df[col].dropna().head(n)`. -/
def colSamples (cells : List PdVal) (n : Nat) : List PdVal :=
  (cells.filter (fun v => v ≠ PdVal.na)).take n

/-- One sampled value counting as text in the content-sniffing tier
(line 798): a string whose stripped form is longer than 3 characters. -/
def sniffTextVal : PdVal → Bool
  | .str s => decide ((pyStrip s).data.length > 3)
  | _ => false

/-- One sampled value counting as numeric in the content-sniffing tier
(lines 804-817): cleans currency symbols from strings and tests for a
positive parse. -/
def sniffNumVal : PdVal → Bool
  | .str s =>
    match parseFloatQ (cleanPrice s) with
    | some q => decide (q > 0)
    | none => false
  | .num q => decide (q > 0)
  | .na => false

/-- The Python threshold `count >= len * 0.7` (exact in rationals). -/
def ratioOk70 (count len : Nat) : Bool :=
  decide (10 * count ≥ 7 * len)

/-- The Python threshold `count >= len * 0.6` (exact in rationals). -/
def ratioOk60 (count len : Nat) : Bool :=
  decide (5 * count ≥ 3 * len)

/-- A column accepted as device-name column by content sniffing
(lines 786-800): not `Unnamed`, a nonempty sample, and at least 70 percent
text values. -/
def sniffTextCol (p : String × List PdVal) : Bool :=
  let samples := colSamples p.2 10
  !(strStarts p.1 "Unnamed") && !samples.isEmpty &&
    ratioOk70 (samples.countP sniffTextVal) samples.length

/-- A column accepted as price column by content sniffing (lines 786-820). -/
def sniffNumCol (p : String × List PdVal) : Bool :=
  let samples := colSamples p.2 10
  !(strStarts p.1 "Unnamed") && !samples.isEmpty &&
    ratioOk70 (samples.countP sniffNumVal) samples.length

/-- One sampled value that "looks like a phone name" in the hunt tier
(lines 834-841): longer than 5 characters, containing a letter, and not
digit-only even after removing dots and dashes.  A float cell renders to
digits, sign, dot or exponent and never passes the letter test in the data
this program handles, so numeric cells count as false. -/
def huntNameVal : PdVal → Bool
  | .str s =>
    let v := pyStrip s
    decide (v.data.length > 5) && v.data.any Char.isAlpha &&
      !(pyIsDigit v) && !(pyIsDigit (removeChar '-' (removeChar '.' v)))
  | _ => false

/-- A column accepted by the phone-name hunt (lines 822-845): label not
containing an exclusion keyword (lowercased, not stripped there) and at
least 70 percent name-looking samples (the source has no emptiness check
here, so an empty sample list passes). -/
def huntCol (p : String × List PdVal) : Bool :=
  if excludeKeywords.any (fun k => strContains (pyLower p.1) k) then false
  else
    let samples := colSamples p.2 10
    ratioOk70 (samples.countP huntNameVal) samples.length

/-- An `Unnamed` column accepted as price column in the last-resort tier
(lines 861-879): at least 60 percent positive-numeric among the first 5
non-null samples (an empty sample list passes). -/
def unnamedNumCol (p : String × List PdVal) : Bool :=
  if strStarts p.1 "Unnamed" then
    let samples := colSamples p.2 5
    ratioOk60 (samples.countP sniffNumVal) samples.length
  else false

/-- Tier 1 (lines 722-735): fixed positional guesses, index 1 for the device
name, 4 for the price, 8 for the prepaid price. -/
def pdPositional (labels : List String) : DetectedCols :=
  ⟨if labels.length > 1 then labels.get? 1 else none,
   if labels.length > 4 then labels.get? 4 else none,
   if labels.length > 8 then labels.get? 8 else none⟩

/-- Tier 2 (lines 738-782): exact and keyword name matching, run when any of
the three roles is still falsy, each role assigned only when itself falsy. -/
def pdNameTier (labels : List String) (d : DetectedCols) : DetectedCols :=
  if !(optStrTruthy d.phone) || !(optStrTruthy d.msrp) ||
      !(optStrTruthy d.prepaid) then
    ⟨pyAssign (pyAssign d.phone (labels.find? exactPhoneCond))
        (labels.find? broadPhoneCond),
      pyAssign (pyAssign d.msrp (labels.find? msrpExactCond))
        (labels.find? priceKwCond),
      pyAssign d.prepaid (labels.find? prepaidExactCond)⟩
  else d

/-- Tier 3 (lines 785-820): content sniffing for phone and price. -/
def pdSniffTier (cols : List (String × List PdVal)) (d : DetectedCols) :
    DetectedCols :=
  if !(optStrTruthy d.phone) || !(optStrTruthy d.msrp) then
    ⟨pyAssign d.phone ((cols.find? sniffTextCol).map Prod.fst),
      pyAssign d.msrp ((cols.find? sniffNumCol).map Prod.fst),
      d.prepaid⟩
  else d

/-- Tier 4 (lines 822-845): the phone-name hunt. -/
def pdHuntTier (cols : List (String × List PdVal)) (d : DetectedCols) :
    DetectedCols :=
  if !(optStrTruthy d.phone) then
    ⟨pyAssign d.phone ((cols.find? huntCol).map Prod.fst), d.msrp, d.prepaid⟩
  else d

/-- The `non_unnamed_cols` list of line 850: labels neither starting with
`Unnamed` nor containing a code/id keyword. -/
def nonUnnamedCols (cols : List (String × List PdVal)) : List String :=
  (cols.map Prod.fst).filter (fun l =>
    !(strStarts l "Unnamed") &&
      !(excludeKeywords.any (fun k => strContains (pyLower l) k)))

/-- Tier 5 (lines 847-879): the last-resort pick among non-`Unnamed`,
non-code columns, plus the `Unnamed` numeric scan for the price. -/
def pdLastTier (cols : List (String × List PdVal)) (d : DetectedCols) :
    DetectedCols :=
  if !(optStrTruthy d.phone) || !(optStrTruthy d.msrp) then
    if (nonUnnamedCols cols).isEmpty then d
    else
      ⟨pyAssign d.phone ((nonUnnamedCols cols).get? 0),
        pyAssign
          (if (nonUnnamedCols cols).length ≥ 2 then
            pyAssign d.msrp ((nonUnnamedCols cols).get? 1)
           else d.msrp)
          ((cols.find? unnamedNumCol).map Prod.fst),
        d.prepaid⟩
  else d

/-- The full pandas column detection of `process_price_sheet`
(lines 717-879), tiers applied in source order. -/
def pdDetect (cols : List (String × List PdVal)) : DetectedCols :=
  pdLastTier cols (pdHuntTier cols (pdSniffTier cols
    (pdNameTier (cols.map Prod.fst) (pdPositional (cols.map Prod.fst)))))

/-- Python `str(val)` on a pandas cell. -/
def pyStrOfVal : PdVal → String
  | .str s => s
  | .num q => toString q
  | .na => "nan"

/-- The placeholder names skipped by the row loop (line 910). -/
def skipNames : List String :=
  ["nan", "", "null", "none"]

/-- The prepaid field computed by the pandas row loop (lines 932-949):
`none` when the cell is NaN, cleans to empty, fails to parse, or is not
positive; parse errors are swallowed keeping the msrp. -/
def pdPrepaidOf : Option PdVal → Option ℚ
  | some (.num q) => if q > 0 then some q else none
  | some (.str s) =>
    if cleanPrice s ≠ "" then
      match parseFloatQ (cleanPrice s) with
      | some q => if q > 0 then some q else none
      | none => none
    else none
  | some .na => none
  | none => none

/-- One iteration of the pandas row loop (lines 904-958) over the
accumulator (new devices, processed count, skipped count). -/
def pdRowStep (phoneV msrpV : PdVal) (prepaidV : Option PdVal)
    (acc : Catalog × Nat × Nat) : Catalog × Nat × Nat :=
  let phoneName := pyStrip (pyStrOfVal phoneV)
  if skipNames.contains (pyLower phoneName) ∨ phoneName.data.length < 2 then
    (acc.1, acc.2.1, acc.2.2 + 1)
  else
    match msrpV with
    | .na => (acc.1, acc.2.1, acc.2.2 + 1)
    | .num q =>
      if q > 0 then
        (dictInsert acc.1 phoneName ⟨q, pdPrepaidOf prepaidV⟩,
          acc.2.1 + 1, acc.2.2)
      else (acc.1, acc.2.1, acc.2.2 + 1)
    | .str s =>
      if cleanPrice s = "" then (acc.1, acc.2.1, acc.2.2 + 1)
      else
        match parseFloatQ (cleanPrice s) with
        | none => (acc.1, acc.2.1, acc.2.2 + 1)
        | some q =>
          if q > 0 then
            (dictInsert acc.1 phoneName ⟨q, pdPrepaidOf prepaidV⟩,
              acc.2.1 + 1, acc.2.2)
          else (acc.1, acc.2.1, acc.2.2 + 1)

/-- Row access `row[col]` by column label (first matching label; pandas
labels are unique in the data this program handles). -/
def pdCellAt (cols : List (String × List PdVal)) (label : String) (i : Nat) :
    PdVal :=
  match cols.find? (fun p => p.1 = label) with
  | some p => (p.2.get? i).getD PdVal.na
  | none => PdVal.na

/-- The prepaid cell passed to a row iteration: only when the detected
prepaid column is truthy and actually among the columns (line 933). -/
def pdPrepaidCell (cols : List (String × List PdVal)) (ppc : Option String)
    (i : Nat) : Option PdVal :=
  match ppc with
  | some pl =>
    if pl ≠ "" ∧ cols.any (fun p => p.1 = pl) then some (pdCellAt cols pl i)
    else none
  | none => none

/-- The pandas row loop over all row indices. -/
def pdProcessRows (cols : List (String × List PdVal)) (pc mc : String)
    (ppc : Option String) (nRows : Nat) : Catalog × Nat × Nat :=
  (List.range nRows).foldl
    (fun acc i =>
      pdRowStep (pdCellAt cols pc i) (pdCellAt cols mc i)
        (pdPrepaidCell cols ppc i) acc)
    ([], 0, 0)

/-- A delimited-text payload: header fieldnames plus data rows of raw
strings. -/
structure CsvTable where
  headers : List String
  rows : List (List String)
deriving DecidableEq

/-- pandas numeric-column inference: some non-empty cell and all non-empty
cells parse as numbers. -/
def pdInferNumeric (cells : List String) : Bool :=
  let ne := cells.filter (fun c => c ≠ "")
  !ne.isEmpty && ne.all (fun c => (parseFloatQ c).isSome)

/-- Conversion of one raw cell under the column's inferred type. -/
def pdConvertCell (numeric : Bool) (c : String) : PdVal :=
  if c = "" then PdVal.na
  else if numeric then PdVal.num ((parseFloatQ c).getD 0)
  else PdVal.str c

/-- Model of `pd.read_csv` followed by `df.dropna(axis=1, how='all')`
(line 715): build typed columns (short rows padded with NaN) and drop
all-NaN columns. -/
def pdReadTable (t : CsvTable) : List (String × List PdVal) :=
  (t.headers.enum.map (fun ih =>
    let cells := t.rows.map (fun r => (r.get? ih.1).getD "")
    (ih.2, cells.map (pdConvertCell (pdInferNumeric cells))))).filter
    (fun p => !(p.2.all (fun v => v = PdVal.na)))

/-! ### `process_price_sheet` and `download_and_process_google_sheets`
(web_app.py lines 642-991) as state transformers -/

/-- The persisted Last-Update Record written after a successful refresh
(lines 663-670). -/
structure UpdateRecord where
  lastCheck : Int
  lastUpdateTime : Int
  size : String
  devicesCount : Nat
  devicesProcessed : Nat
  devicesSkipped : Nat
deriving DecidableEq

/-- The persisted and in-memory state touched by a refresh: the raw cache
file `latest_prices_cache.csv`, the persisted catalog `devices.json`, the
Last-Update Record `last_update.json`, and the in-memory catalog
`self.devices`. -/
structure AppState where
  cacheFile : Option CsvTable
  devicesJson : Option Catalog
  lastUpdate : Option UpdateRecord
  devicesMem : Catalog
deriving DecidableEq

/-- The outcome reported by `process_price_sheet`. -/
structure SheetResult where
  success : Bool
  processed : Nat
  skipped : Nat
deriving DecidableEq

/-- Embedding of `process_price_sheet` on a CSV payload: try the streaming
processor; on its success merge and persist; otherwise fall back to the
pandas path (detection, row loop, merge and persist only when some device
was extracted).  State is mutated only in the success branches. -/
def process_price_sheet (t : CsvTable) (s : AppState) :
    SheetResult × AppState :=
  match process_csv_stream t.headers t.rows with
  | some ok =>
    (⟨true, ok.processed, ok.skipped⟩,
      { s with devicesMem := dictUpdate s.devicesMem ok.devices,
               devicesJson := some (dictUpdate s.devicesMem ok.devices) })
  | none =>
    match (pdDetect (pdReadTable t)).phone, (pdDetect (pdReadTable t)).msrp with
    | some pc, some mc =>
      if pc ≠ "" ∧ mc ≠ "" then
        if (pdProcessRows (pdReadTable t) pc mc
            (pdDetect (pdReadTable t)).prepaid t.rows.length).1 ≠ [] then
          (⟨true,
            (pdProcessRows (pdReadTable t) pc mc
              (pdDetect (pdReadTable t)).prepaid t.rows.length).2.1,
            (pdProcessRows (pdReadTable t) pc mc
              (pdDetect (pdReadTable t)).prepaid t.rows.length).2.2⟩,
            { s with
              devicesMem := dictUpdate s.devicesMem
                (pdProcessRows (pdReadTable t) pc mc
                  (pdDetect (pdReadTable t)).prepaid t.rows.length).1,
              devicesJson := some (dictUpdate s.devicesMem
                (pdProcessRows (pdReadTable t) pc mc
                  (pdDetect (pdReadTable t)).prepaid t.rows.length).1) })
        else
          (⟨false,
            (pdProcessRows (pdReadTable t) pc mc
              (pdDetect (pdReadTable t)).prepaid t.rows.length).2.1,
            (pdProcessRows (pdReadTable t) pc mc
              (pdDetect (pdReadTable t)).prepaid t.rows.length).2.2⟩, s)
      else (⟨false, 0, 0⟩, s)
    | _, _ => (⟨false, 0, 0⟩, s)

/-- Embedding of `download_and_process_google_sheets`: `fetch` is the HTTP
response (`none` when the request raises, otherwise status, payload and byte
length).  On a 200 response the payload is first written to the cache file,
then processed; the Last-Update Record is written only on processing
success. -/
def download_and_process : Option (Nat × CsvTable × Nat) → Int → AppState →
    Bool × AppState
  | none, _, s => (false, s)
  | some (status, content, nbytes), now, s =>
    if status ≠ 200 then (false, s)
    else
      if (process_price_sheet content { s with cacheFile := some content }).1.success then
        (true,
          { (process_price_sheet content { s with cacheFile := some content }).2 with
            lastUpdate := some
              ⟨now, now, toString nbytes,
                (process_price_sheet content
                  { s with cacheFile := some content }).2.devicesMem.length,
                (process_price_sheet content
                  { s with cacheFile := some content }).1.processed,
                (process_price_sheet content
                  { s with cacheFile := some content }).1.skipped⟩ })
      else
        (false, (process_price_sheet content { s with cacheFile := some content }).2)


/-! ### Tier lemmas for the pandas column detection -/

theorem optStrTruthy_some {s : String} (h : s ≠ "") :
    optStrTruthy (some s) = true := by
  simp [optStrTruthy, h]

theorem pyAssign_of_truthy {cur : Option String} (f : Option String)
    (h : optStrTruthy cur = true) : pyAssign cur f = cur := by
  simp [pyAssign, h]

theorem pyAssign_none_some (c : String) : pyAssign none (some c) = some c := by
  simp [pyAssign, optStrTruthy]

theorem pyAssign_none_none : pyAssign none none = none := by
  simp [pyAssign, optStrTruthy]

theorem exactPhoneCond_ne_empty {l : String} (h : exactPhoneCond l = true) :
    l ≠ "" := by
  intro he
  rw [he] at h
  exact absurd h (by decide)

theorem broadPhoneCond_ne_empty {l : String} (h : broadPhoneCond l = true) :
    l ≠ "" := by
  intro he
  rw [he] at h
  exact absurd h (by decide)

theorem msrpExactCond_ne_empty {l : String} (h : msrpExactCond l = true) :
    l ≠ "" := by
  intro he
  rw [he] at h
  exact absurd h (by decide)

theorem pdNameTier_phone_truthy (labels : List String) {d : DetectedCols}
    (h : optStrTruthy d.phone = true) : (pdNameTier labels d).phone = d.phone := by
  unfold pdNameTier
  split
  · simp [pyAssign_of_truthy _ h]
  · rfl

theorem pdNameTier_msrp_truthy (labels : List String) {d : DetectedCols}
    (h : optStrTruthy d.msrp = true) : (pdNameTier labels d).msrp = d.msrp := by
  unfold pdNameTier
  split
  · simp [pyAssign_of_truthy _ h]
  · rfl

theorem pdNameTier_prepaid_truthy (labels : List String) {d : DetectedCols}
    (h : optStrTruthy d.prepaid = true) :
    (pdNameTier labels d).prepaid = d.prepaid := by
  unfold pdNameTier
  split
  · simp [pyAssign_of_truthy _ h]
  · rfl

theorem pdSniffTier_phone_truthy (cols : List (String × List PdVal))
    {d : DetectedCols} (h : optStrTruthy d.phone = true) :
    (pdSniffTier cols d).phone = d.phone := by
  unfold pdSniffTier
  split
  · simp [pyAssign_of_truthy _ h]
  · rfl

theorem pdSniffTier_msrp_truthy (cols : List (String × List PdVal))
    {d : DetectedCols} (h : optStrTruthy d.msrp = true) :
    (pdSniffTier cols d).msrp = d.msrp := by
  unfold pdSniffTier
  split
  · simp [pyAssign_of_truthy _ h]
  · rfl

theorem pdSniffTier_prepaid (cols : List (String × List PdVal))
    (d : DetectedCols) : (pdSniffTier cols d).prepaid = d.prepaid := by
  unfold pdSniffTier
  split <;> rfl

theorem pdHuntTier_phone_truthy (cols : List (String × List PdVal))
    {d : DetectedCols} (h : optStrTruthy d.phone = true) :
    (pdHuntTier cols d).phone = d.phone := by
  unfold pdHuntTier
  split
  · simp [pyAssign_of_truthy _ h]
  · rfl

theorem pdHuntTier_msrp (cols : List (String × List PdVal))
    (d : DetectedCols) : (pdHuntTier cols d).msrp = d.msrp := by
  unfold pdHuntTier
  split <;> rfl

theorem pdHuntTier_prepaid (cols : List (String × List PdVal))
    (d : DetectedCols) : (pdHuntTier cols d).prepaid = d.prepaid := by
  unfold pdHuntTier
  split <;> rfl

theorem pdLastTier_phone_truthy (cols : List (String × List PdVal))
    {d : DetectedCols} (h : optStrTruthy d.phone = true) :
    (pdLastTier cols d).phone = d.phone := by
  unfold pdLastTier
  split
  · split
    · rfl
    · simp [pyAssign_of_truthy _ h]
  · rfl

theorem pdLastTier_msrp_truthy (cols : List (String × List PdVal))
    {d : DetectedCols} (h : optStrTruthy d.msrp = true) :
    (pdLastTier cols d).msrp = d.msrp := by
  unfold pdLastTier
  split
  · split
    · rfl
    · simp [pyAssign_of_truthy _ h]
  · rfl

theorem pdLastTier_prepaid (cols : List (String × List PdVal))
    (d : DetectedCols) : (pdLastTier cols d).prepaid = d.prepaid := by
  unfold pdLastTier
  split
  · split <;> rfl
  · rfl

theorem pdDetect_phone_of_truthy (cols : List (String × List PdVal))
    (h : optStrTruthy (pdNameTier (cols.map Prod.fst)
      (pdPositional (cols.map Prod.fst))).phone = true) :
    (pdDetect cols).phone =
      (pdNameTier (cols.map Prod.fst) (pdPositional (cols.map Prod.fst))).phone := by
  unfold pdDetect
  rw [pdLastTier_phone_truthy, pdHuntTier_phone_truthy, pdSniffTier_phone_truthy]
  · exact h
  · rw [pdSniffTier_phone_truthy cols h]
    exact h
  · rw [pdHuntTier_phone_truthy cols, pdSniffTier_phone_truthy cols h]
    · exact h
    · rw [pdSniffTier_phone_truthy cols h]
      exact h

theorem pdDetect_msrp_of_truthy (cols : List (String × List PdVal))
    (h : optStrTruthy (pdNameTier (cols.map Prod.fst)
      (pdPositional (cols.map Prod.fst))).msrp = true) :
    (pdDetect cols).msrp =
      (pdNameTier (cols.map Prod.fst) (pdPositional (cols.map Prod.fst))).msrp := by
  unfold pdDetect
  rw [pdLastTier_msrp_truthy, pdHuntTier_msrp, pdSniffTier_msrp_truthy]
  · exact h
  · rw [pdHuntTier_msrp, pdSniffTier_msrp_truthy cols h]
    exact h

theorem pdDetect_prepaid (cols : List (String × List PdVal)) :
    (pdDetect cols).prepaid =
      (pdNameTier (cols.map Prod.fst) (pdPositional (cols.map Prod.fst))).prepaid := by
  unfold pdDetect
  rw [pdLastTier_prepaid, pdHuntTier_prepaid, pdSniffTier_prepaid]


theorem pdDetect_phone_pos (cols : List (String × List PdVal)) (l : String)
    (hpos : (pdPositional (cols.map Prod.fst)).phone = some l) (hne : l ≠ "") :
    (pdDetect cols).phone = some l := by
  have ht0 : optStrTruthy (pdPositional (cols.map Prod.fst)).phone = true := by
    rw [hpos]
    exact optStrTruthy_some hne
  have h1 : (pdNameTier (cols.map Prod.fst)
      (pdPositional (cols.map Prod.fst))).phone =
      (pdPositional (cols.map Prod.fst)).phone :=
    pdNameTier_phone_truthy _ ht0
  have ht1 : optStrTruthy (pdNameTier (cols.map Prod.fst)
      (pdPositional (cols.map Prod.fst))).phone = true := by
    rw [h1]
    exact ht0
  rw [pdDetect_phone_of_truthy cols ht1, h1, hpos]

theorem pdDetect_msrp_pos (cols : List (String × List PdVal)) (l : String)
    (hpos : (pdPositional (cols.map Prod.fst)).msrp = some l) (hne : l ≠ "") :
    (pdDetect cols).msrp = some l := by
  have ht0 : optStrTruthy (pdPositional (cols.map Prod.fst)).msrp = true := by
    rw [hpos]
    exact optStrTruthy_some hne
  have h1 : (pdNameTier (cols.map Prod.fst)
      (pdPositional (cols.map Prod.fst))).msrp =
      (pdPositional (cols.map Prod.fst)).msrp :=
    pdNameTier_msrp_truthy _ ht0
  have ht1 : optStrTruthy (pdNameTier (cols.map Prod.fst)
      (pdPositional (cols.map Prod.fst))).msrp = true := by
    rw [h1]
    exact ht0
  rw [pdDetect_msrp_of_truthy cols ht1, h1, hpos]

theorem pdNameTier_phone_from_none (labels : List String) {d : DetectedCols}
    {c : String} (hph : d.phone = none)
    (hex : labels.find? exactPhoneCond = some c) :
    (pdNameTier labels d).phone = some c := by
  have hcnd : (!(optStrTruthy d.phone) || !(optStrTruthy d.msrp) ||
      !(optStrTruthy d.prepaid)) = true := by
    rw [hph]
    simp [optStrTruthy]
  unfold pdNameTier
  rw [if_pos hcnd]
  show pyAssign (pyAssign d.phone (labels.find? exactPhoneCond))
      (labels.find? broadPhoneCond) = some c
  rw [hph, hex, pyAssign_none_some]
  exact pyAssign_of_truthy _
    (optStrTruthy_some (exactPhoneCond_ne_empty (List.find?_some hex)))

theorem pdNameTier_phone_from_none_broad (labels : List String)
    {d : DetectedCols} {c : String} (hph : d.phone = none)
    (hex : labels.find? exactPhoneCond = none)
    (hbr : labels.find? broadPhoneCond = some c) :
    (pdNameTier labels d).phone = some c := by
  have hcnd : (!(optStrTruthy d.phone) || !(optStrTruthy d.msrp) ||
      !(optStrTruthy d.prepaid)) = true := by
    rw [hph]
    simp [optStrTruthy]
  unfold pdNameTier
  rw [if_pos hcnd]
  show pyAssign (pyAssign d.phone (labels.find? exactPhoneCond))
      (labels.find? broadPhoneCond) = some c
  rw [hph, hex, pyAssign_none_none, hbr, pyAssign_none_some]

theorem pdNameTier_msrp_from_none (labels : List String) {d : DetectedCols}
    {c : String} (hms : d.msrp = none)
    (hex : labels.find? msrpExactCond = some c) :
    (pdNameTier labels d).msrp = some c := by
  have hcnd : (!(optStrTruthy d.phone) || !(optStrTruthy d.msrp) ||
      !(optStrTruthy d.prepaid)) = true := by
    rw [hms]
    simp [optStrTruthy]
  unfold pdNameTier
  rw [if_pos hcnd]
  show pyAssign (pyAssign d.msrp (labels.find? msrpExactCond))
      (labels.find? priceKwCond) = some c
  rw [hms, hex, pyAssign_none_some]
  exact pyAssign_of_truthy _
    (optStrTruthy_some (msrpExactCond_ne_empty (List.find?_some hex)))

theorem pdPositional_phone_none (labels : List String)
    (h : ¬ 1 < labels.length) : (pdPositional labels).phone = none := by
  simp [pdPositional, h]

theorem pdPositional_msrp_none (labels : List String)
    (h : ¬ 4 < labels.length) : (pdPositional labels).msrp = none := by
  simp [pdPositional, h]

/-! ### Claim C4 -/

/-- Claim C4 counterexample: the streaming CSV detector runs the keyword
name-match tier first, so on the 3-column header list
`["id", "x", "phone"]` it picks `"phone"`, not the fixed positional guess
`"x"` at index 1, refuting the claimed positional-first order for every
header list. -/
theorem claim_C4_counterexample :
    1 < (["id", "x", "phone"] : List String).length ∧
    (["id", "x", "phone"] : List String).get? 1 = some "x" ∧
    detectPhoneColumn ["id", "x", "phone"] = some "phone" ∧
    detectPhoneColumn ["id", "x", "phone"] ≠ some "x" := by
  decide

/-- Claim C4 (amended): the pandas detection of `process_price_sheet`
applies the fixed positional guess first (index 1 device name when more than
one column and the label is truthy, index 4 primary price, index 8 secondary
price) and runs the name-match tier for a role only when it is unresolved,
first success per role winning; in the streaming CSV detectors the order is
reversed: the keyword match runs first and the fixed index (1 for device
name, 4 for price) is only the fallback when no name matches. -/
theorem claim_C4_amended_tier_order :
    (∀ (cols : List (String × List PdVal)) (l : String),
      (cols.map Prod.fst).get? 1 = some l → l ≠ "" →
      (pdDetect cols).phone = some l) ∧
    (∀ (cols : List (String × List PdVal)) (l : String),
      (cols.map Prod.fst).get? 4 = some l → l ≠ "" →
      (pdDetect cols).msrp = some l) ∧
    (∀ (cols : List (String × List PdVal)) (l : String),
      (cols.map Prod.fst).get? 8 = some l → l ≠ "" →
      (pdDetect cols).prepaid = some l) ∧
    (∀ (cols : List (String × List PdVal)) (c : String),
      cols.length ≤ 1 →
      (cols.map Prod.fst).find? exactPhoneCond = some c →
      (pdDetect cols).phone = some c) ∧
    (∀ (cols : List (String × List PdVal)) (c : String),
      cols.length ≤ 1 →
      (cols.map Prod.fst).find? exactPhoneCond = none →
      (cols.map Prod.fst).find? broadPhoneCond = some c →
      (pdDetect cols).phone = some c) ∧
    (∀ (cols : List (String × List PdVal)) (c : String),
      cols.length ≤ 4 →
      (cols.map Prod.fst).find? msrpExactCond = some c →
      (pdDetect cols).msrp = some c) ∧
    (∀ (fns : List String) (c : String),
      fns.find? (fieldMatchesAny phonePatterns) = some c →
      detectPhoneColumn fns = some c) ∧
    (∀ fns : List String,
      fns.find? (fieldMatchesAny phonePatterns) = none →
      detectPhoneColumn fns = fns.get? 1) ∧
    (∀ (fns : List String) (c : String),
      fns.find? (fieldMatchesAny msrpPatterns) = some c →
      detectMsrpColumn fns = some c) ∧
    (∀ fns : List String,
      fns.find? (fieldMatchesAny msrpPatterns) = none →
      detectMsrpColumn fns = fns.get? 4) := by
  refine ⟨?_, ?_, ?_, ?_, ?_, ?_, ?_, ?_, ?_, ?_⟩
  · intro cols l h hne
    have hlt : 1 < (cols.map Prod.fst).length := by
      by_contra hc
      rw [List.get?_eq_none.mpr (not_lt.mp hc)] at h
      exact Option.noConfusion h
    refine pdDetect_phone_pos cols l ?_ hne
    show (if (cols.map Prod.fst).length > 1 then (cols.map Prod.fst).get? 1
      else none) = some l
    rw [if_pos hlt]
    exact h
  · intro cols l h hne
    have hlt : 4 < (cols.map Prod.fst).length := by
      by_contra hc
      rw [List.get?_eq_none.mpr (not_lt.mp hc)] at h
      exact Option.noConfusion h
    refine pdDetect_msrp_pos cols l ?_ hne
    show (if (cols.map Prod.fst).length > 4 then (cols.map Prod.fst).get? 4
      else none) = some l
    rw [if_pos hlt]
    exact h
  · intro cols l h hne
    have hlt : 8 < (cols.map Prod.fst).length := by
      by_contra hc
      rw [List.get?_eq_none.mpr (not_lt.mp hc)] at h
      exact Option.noConfusion h
    have hpos : (pdPositional (cols.map Prod.fst)).prepaid = some l := by
      show (if (cols.map Prod.fst).length > 8 then (cols.map Prod.fst).get? 8
        else none) = some l
      rw [if_pos hlt]
      exact h
    rw [pdDetect_prepaid, pdNameTier_prepaid_truthy]
    · exact hpos
    · rw [hpos]
      exact optStrTruthy_some hne
  · intro cols c hlen hex
    have hlt : ¬ 1 < (cols.map Prod.fst).length := by
      rw [List.length_map]
      omega
    have h1 : (pdNameTier (cols.map Prod.fst)
        (pdPositional (cols.map Prod.fst))).phone = some c :=
      pdNameTier_phone_from_none _ (pdPositional_phone_none _ hlt) hex
    have ht1 : optStrTruthy (pdNameTier (cols.map Prod.fst)
        (pdPositional (cols.map Prod.fst))).phone = true := by
      rw [h1]
      exact optStrTruthy_some (exactPhoneCond_ne_empty (List.find?_some hex))
    rw [pdDetect_phone_of_truthy cols ht1, h1]
  · intro cols c hlen hex hbr
    have hlt : ¬ 1 < (cols.map Prod.fst).length := by
      rw [List.length_map]
      omega
    have h1 : (pdNameTier (cols.map Prod.fst)
        (pdPositional (cols.map Prod.fst))).phone = some c :=
      pdNameTier_phone_from_none_broad _ (pdPositional_phone_none _ hlt) hex hbr
    have ht1 : optStrTruthy (pdNameTier (cols.map Prod.fst)
        (pdPositional (cols.map Prod.fst))).phone = true := by
      rw [h1]
      exact optStrTruthy_some (broadPhoneCond_ne_empty (List.find?_some hbr))
    rw [pdDetect_phone_of_truthy cols ht1, h1]
  · intro cols c hlen hex
    have hlt : ¬ 4 < (cols.map Prod.fst).length := by
      rw [List.length_map]
      omega
    have h1 : (pdNameTier (cols.map Prod.fst)
        (pdPositional (cols.map Prod.fst))).msrp = some c :=
      pdNameTier_msrp_from_none _ (pdPositional_msrp_none _ hlt) hex
    have ht1 : optStrTruthy (pdNameTier (cols.map Prod.fst)
        (pdPositional (cols.map Prod.fst))).msrp = true := by
      rw [h1]
      exact optStrTruthy_some (msrpExactCond_ne_empty (List.find?_some hex))
    rw [pdDetect_msrp_of_truthy cols ht1, h1]
  · intro fns c h
    unfold detectPhoneColumn
    rw [h]
  · intro fns h
    unfold detectPhoneColumn
    rw [h]
  · intro fns c h
    unfold detectMsrpColumn
    rw [h]
  · intro fns h
    unfold detectMsrpColumn
    rw [h]

/-- Claim C4 witness: the pandas positional-first rule applied to a concrete
two-column table. -/
theorem claim_C4_witness :
    (pdDetect [("a", [PdVal.str "x"]), ("b", [PdVal.str "y"])]).phone =
      some "b" :=
  claim_C4_amended_tier_order.1 [("a", [PdVal.str "x"]), ("b", [PdVal.str "y"])]
    "b" (by decide) (by decide)


/-! ### Claim C2 -/

theorem process_price_sheet_spec (t : CsvTable) (s : AppState) :
    (process_price_sheet t s).1.success = true ∨
      (process_price_sheet t s).2 = s := by
  unfold process_price_sheet
  split
  · left
    rfl
  · split
    · split
      · split
        · left
          rfl
        · right
          rfl
      · right
        rfl
    · right
      rfl

theorem process_price_sheet_fail (t : CsvTable) (s : AppState)
    (h : (process_price_sheet t s).1.success = false) :
    (process_price_sheet t s).2 = s := by
  rcases process_price_sheet_spec t s with hs | hs
  · rw [hs] at h
    exact absurd h (by simp)
  · exact hs

theorem process_price_sheet_cacheFile (t : CsvTable) (s : AppState) :
    (process_price_sheet t s).2.cacheFile = s.cacheFile := by
  unfold process_price_sheet
  split
  · rfl
  · split
    · split
      · split
        · rfl
        · rfl
      · rfl
    · rfl

/-- Claim C2 counterexample: a refresh whose download returns 200 with an
unprocessable payload (single unrecognizable column) fails, yet the local
raw cache copy has already been overwritten with the downloaded payload, so
the prior persisted state is not left unchanged on every failing refresh. -/
theorem claim_C2_counterexample :
    (download_and_process (some (200, ⟨["a"], [["x"]]⟩, 1)) 0
        ⟨some ⟨["a"], [["1"]]⟩, some [], none, []⟩).1 = false ∧
    (download_and_process (some (200, ⟨["a"], [["x"]]⟩, 1)) 0
        ⟨some ⟨["a"], [["1"]]⟩, some [], none, []⟩).2.cacheFile =
      some ⟨["a"], [["x"]]⟩ ∧
    (⟨some ⟨["a"], [["1"]]⟩, some [], none, []⟩ : AppState).cacheFile ≠
      some ⟨["a"], [["x"]]⟩ := by
  refine ⟨?_, ?_, ?_⟩ <;> with_unfolding_all decide

/-- Claim C2 (amended): a refresh failing at the check or download step
(request error or non-200 status) leaves the whole state unchanged; every
failing refresh leaves the persisted catalog file, the Last-Update Record
and the in-memory catalog unchanged (so the in-memory catalog is mutated
only on full ingestion success); but after any 200 download the local raw
cache copy holds the downloaded payload, even when the subsequent ingestion
fails. -/
theorem claim_C2_amended_persisted_state (s : AppState)
    (fetch : Option (Nat × CsvTable × Nat)) (now : Int) :
    (fetch = none → download_and_process fetch now s = (false, s)) ∧
    (∀ status content nbytes, fetch = some (status, content, nbytes) →
      status ≠ 200 → download_and_process fetch now s = (false, s)) ∧
    ((download_and_process fetch now s).1 = false →
      (download_and_process fetch now s).2.devicesJson = s.devicesJson ∧
      (download_and_process fetch now s).2.lastUpdate = s.lastUpdate ∧
      (download_and_process fetch now s).2.devicesMem = s.devicesMem) ∧
    (∀ content nbytes, fetch = some (200, content, nbytes) →
      (download_and_process fetch now s).2.cacheFile = some content) := by
  have h200 : ¬((200 : Nat) ≠ 200) := fun hh => hh rfl
  refine ⟨?_, ?_, ?_, ?_⟩
  · intro h
    subst h
    rfl
  · intro status content nbytes h hst
    subst h
    simp only [download_and_process]
    rw [if_pos hst]
  · intro h
    cases fetch with
    | none => exact ⟨rfl, rfl, rfl⟩
    | some x =>
      obtain ⟨st, c, n⟩ := x
      by_cases hst : st ≠ 200
      · have he : download_and_process (some (st, c, n)) now s = (false, s) := by
          simp only [download_and_process]
          rw [if_pos hst]
        rw [he]
        exact ⟨rfl, rfl, rfl⟩
      · rw [not_ne_iff] at hst
        subst hst
        by_cases hsucc :
            (process_price_sheet c { s with cacheFile := some c }).1.success = true
        · have he : (download_and_process (some (200, c, n)) now s).1 = true := by
            simp only [download_and_process]
            rw [if_neg h200, if_pos hsucc]
          rw [he] at h
          exact absurd h (by simp)
        · have hfalse :
              (process_price_sheet c { s with cacheFile := some c }).1.success =
                false := by
            simpa using hsucc
          have hfail := process_price_sheet_fail c
            { s with cacheFile := some c } hfalse
          have he : download_and_process (some (200, c, n)) now s =
              (false, (process_price_sheet c { s with cacheFile := some c }).2) := by
            simp only [download_and_process]
            rw [if_neg h200, if_neg hsucc]
          rw [he, hfail]
          exact ⟨rfl, rfl, rfl⟩
  · intro c n h
    subst h
    simp only [download_and_process]
    rw [if_neg h200]
    by_cases hsucc :
        (process_price_sheet c { s with cacheFile := some c }).1.success = true
    · rw [if_pos hsucc]
      show (process_price_sheet c { s with cacheFile := some c }).2.cacheFile =
        some c
      rw [process_price_sheet_cacheFile]
    · rw [if_neg hsucc]
      show (process_price_sheet c { s with cacheFile := some c }).2.cacheFile =
        some c
      rw [process_price_sheet_cacheFile]

/-- Claim C2 witness: the amended theorem applied to a concrete failed fetch
(request error), showing the state is returned unchanged. -/
theorem claim_C2_witness :
    download_and_process none 0 ⟨none, none, none, []⟩ =
      (false, ⟨none, none, none, []⟩) :=
  (claim_C2_amended_persisted_state ⟨none, none, none, []⟩ none 0).1 rfl

/-! ### Claim C7 -/

theorem alistGet_mem {α : Type} {l : List (String × α)} {k : String} {v : α}
    (h : alistGet l k = some v) : (k, v) ∈ l := by
  induction l with
  | nil => exact absurd h (by simp [alistGet])
  | cons p rest ih =>
    unfold alistGet at h
    by_cases hp : p.1 = k
    · rw [if_pos hp] at h
      have hv : p.2 = v := Option.some.inj h
      have hpk : p = (k, v) := by
        cases p
        simp_all
      rw [← hpk]
      exact List.mem_cons_self p rest
    · rw [if_neg hp] at h
      exact List.mem_cons_of_mem p (ih h)

theorem dictInsert_forall {α : Type} (P : α → Prop) {d : List (String × α)}
    {k : String} {v : α} (hd : ∀ p ∈ d, P p.2) (hv : P v) :
    ∀ p ∈ dictInsert d k v, P p.2 := by
  intro p hp
  unfold dictInsert at hp
  split at hp
  · obtain ⟨q, hq, hpq⟩ := List.mem_map.mp hp
    by_cases h : q.1 = k
    · rw [if_pos h] at hpq
      rw [← hpq]
      exact hv
    · rw [if_neg h] at hpq
      rw [← hpq]
      exact hd q hq
  · rcases List.mem_append.mp hp with h | h
    · exact hd p h
    · rw [List.mem_singleton] at h
      rw [h]
      exact hv

theorem dictUpdate_forall {α : Type} (P : α → Prop) {d u : List (String × α)}
    (hd : ∀ p ∈ d, P p.2) (hu : ∀ p ∈ u, P p.2) :
    ∀ p ∈ dictUpdate d u, P p.2 := by
  intro p hp
  unfold dictUpdate at hp
  rcases List.mem_append.mp hp with h | h
  · obtain ⟨q, hq, hpq⟩ := List.mem_map.mp h
    cases hqu : alistGet u q.1 with
    | some v =>
      rw [hqu] at hpq
      rw [← hpq]
      exact hu _ (alistGet_mem hqu)
    | none =>
      rw [hqu] at hpq
      rw [← hpq]
      exact hd q hq
  · exact hu p (List.mem_filter.mp h).1

theorem csvRowStep_msrp_pos {fieldnames : List String} {pc mc : String}
    {ppc : Option String} {st : IngestTotals} (cells : List String)
    (h : ∀ p ∈ st.devices, 0 < p.2.msrp) :
    ∀ p ∈ (csvRowStep fieldnames pc mc ppc st cells).devices, 0 < p.2.msrp := by
  by_cases h1 : rowCell fieldnames cells pc = "" ∨ rowCell fieldnames cells mc = ""
  · simp only [csvRowStep, if_pos h1]
    exact h
  · by_cases h2 : parsePrice (rowCell fieldnames cells mc) ≤ 0
    · simp only [csvRowStep, if_neg h1, if_pos h2]
      exact h
    · simp only [csvRowStep, if_neg h1, if_neg h2]
      exact dictInsert_forall (fun r : PriceRecord => 0 < r.msrp) h (not_le.mp h2)

theorem csvFold_msrp_pos (fieldnames : List String) (pc mc : String)
    (ppc : Option String) (rows : List (List String)) (st : IngestTotals)
    (h : ∀ p ∈ st.devices, 0 < p.2.msrp) :
    ∀ p ∈ (rows.foldl (csvRowStep fieldnames pc mc ppc) st).devices,
      0 < p.2.msrp := by
  induction rows generalizing st with
  | nil => simpa using h
  | cons r rest ih =>
    simp only [List.foldl_cons]
    exact ih _ (csvRowStep_msrp_pos r h)

theorem pdRowStep_msrp_pos {phoneV msrpV : PdVal} {prepaidV : Option PdVal}
    {acc : Catalog × Nat × Nat} (h : ∀ p ∈ acc.1, 0 < p.2.msrp) :
    ∀ p ∈ (pdRowStep phoneV msrpV prepaidV acc).1, 0 < p.2.msrp := by
  by_cases h1 : skipNames.contains (pyLower (pyStrip (pyStrOfVal phoneV))) = true ∨
      (pyStrip (pyStrOfVal phoneV)).data.length < 2
  · simp only [pdRowStep, if_pos h1]
    exact h
  · simp only [pdRowStep, if_neg h1]
    cases msrpV with
    | na => exact h
    | num q =>
      by_cases hq : q > 0
      · simp only [if_pos hq]
        exact dictInsert_forall (fun r : PriceRecord => 0 < r.msrp) h hq
      · simp only [if_neg hq]
        exact h
    | str str0 =>
      by_cases hc : cleanPrice str0 = ""
      · simp only [if_pos hc]
        exact h
      · simp only [if_neg hc]
        cases hp : parseFloatQ (cleanPrice str0) with
        | none => exact h
        | some q =>
          by_cases hq : q > 0
          · simp only [if_pos hq]
            exact dictInsert_forall (fun r : PriceRecord => 0 < r.msrp) h hq
          · simp only [if_neg hq]
            exact h

theorem pdFold_msrp_pos (cols : List (String × List PdVal)) (pc mc : String)
    (ppc : Option String) (idxs : List Nat) (acc : Catalog × Nat × Nat)
    (h : ∀ p ∈ acc.1, 0 < p.2.msrp) :
    ∀ p ∈ (idxs.foldl (fun acc i =>
        pdRowStep (pdCellAt cols pc i) (pdCellAt cols mc i)
          (pdPrepaidCell cols ppc i) acc) acc).1, 0 < p.2.msrp := by
  induction idxs generalizing acc with
  | nil => simpa using h
  | cons i rest ih =>
    simp only [List.foldl_cons]
    exact ih _ (pdRowStep_msrp_pos h)

/-- Claim C7: every price record stored by an ingestion path has a positive
msrp: the streaming CSV processor only emits records with a positive parsed
price, the pandas row loop likewise, and the merge into the catalog
preserves positivity, so the invariant `msrp > 0` holds for every record in
the catalog after every ingestion and merge operation that starts from a
catalog satisfying it. -/
theorem claim_C7_msrp_positive :
    (∀ (fieldnames : List String) (rows : List (List String)) (ok : CsvOk),
      process_csv_stream fieldnames rows = some ok →
      ∀ p ∈ ok.devices, 0 < p.2.msrp) ∧
    (∀ (cols : List (String × List PdVal)) (pc mc : String)
        (ppc : Option String) (n : Nat),
      ∀ p ∈ (pdProcessRows cols pc mc ppc n).1, 0 < p.2.msrp) ∧
    (∀ d u : Catalog, (∀ p ∈ d, 0 < p.2.msrp) → (∀ p ∈ u, 0 < p.2.msrp) →
      ∀ p ∈ dictUpdate d u, 0 < p.2.msrp) := by
  refine ⟨?_, ?_, ?_⟩
  · intro fieldnames rows ok h
    unfold process_csv_stream at h
    split at h
    · rename_i pc mc heqp heqm
      split at h
      · obtain rfl := Option.some.inj h
        exact csvFold_msrp_pos fieldnames pc mc
          (detectPrepaidColumn fieldnames) rows ⟨[], 0, 0⟩ (by simp)
      · exact absurd h (by simp)
    · exact absurd h (by simp)
  · intro cols pc mc ppc n
    exact pdFold_msrp_pos cols pc mc ppc (List.range n) ([], 0, 0) (by simp)
  · intro d u hd hu
    exact dictUpdate_forall (fun r : PriceRecord => 0 < r.msrp) hd hu

/-- Claim C7 witness: the streaming-ingestion half applied to a concrete
one-row table, giving positivity of the stored record's msrp. -/
theorem claim_C7_witness :
    0 < (("Pixel 8a", (⟨499, none⟩ : PriceRecord)) : String × PriceRecord).2.msrp :=
  claim_C7_msrp_positive.1 ["Phone", "Price"] [["Pixel 8a", "499"]]
    ⟨[("Pixel 8a", ⟨499, none⟩)], 1, 0, "Phone", "Price", none⟩
    (by with_unfolding_all decide)
    ("Pixel 8a", ⟨499, none⟩) (by simp)

end SalesTaxCalc
